import Mathlib

/-!
A verification development for the crossword-puzzle state machine of
`src/crossword` (files `types.py` and `crossword.py`).

The Python classes are embedded as Lean structures; the mutating methods of
`CrosswordPuzzle` become explicit state-passing functions.  A method that can
raise is embedded as a function returning `Except PyErr _` paired with the
state after the call; mutations the Python code performs before a raise are
kept in that state, so partial mutation on failure is observable.

Python facts the embedding relies on:
  * pydantic `BaseModel.__eq__` compares all fields by value, so list
    membership (`in`), `list.index` and `!=` are value equality over every
    field; this is `DecidableEq` on the derived structures.
  * pydantic field validators make `number`, `length`, `width`, `height`
    positive and `row`, `col` non-negative, so `Nat` is used throughout.
  * Python list indexing with a non-negative out-of-range index raises
    `IndexError`; all indices occurring here are non-negative.
  * `str.upper` on a one-character string is `Char.toUpper` (the sources and
    the concrete inputs below only use ASCII letters).
-/

namespace Crossword

/-- `Direction` of `types.py`. -/
inductive Direction where
  | across
  | down
deriving DecidableEq, Repr

/-- `Cell` of `types.py`: position plus an optional character value. -/
structure Cell where
  row : Nat
  col : Nat
  value : Option Char
deriving DecidableEq, Repr

/-- `Clue` of `types.py`. -/
structure Clue where
  number : Nat
  text : String
  direction : Direction
  length : Nat
  row : Nat
  col : Nat
  answer : Option String
  answered : Bool
deriving DecidableEq, Repr

/-- `Clue.cells` of `types.py`: the occupied (row, col) coordinates, one per
`i < length`, advancing along the clue's direction. -/
def Clue.cells (c : Clue) : List (Nat × Nat) :=
  (List.range c.length).map (fun i =>
    match c.direction with
    | Direction.across => (c.row, c.col + i)
    | Direction.down => (c.row + i, c.col))

/-- `Grid` of `types.py`. -/
structure Grid where
  width : Nat
  height : Nat
  cells : List (List Cell)
deriving DecidableEq, Repr

/-- The Python exceptions that can escape the methods modelled here.
`valueError` is `list.index` failing, `typeError` is `list(None)`,
`indexError` is out-of-range list indexing. -/
inductive PyErr where
  | invalidClue (msg : String)
  | invalidGrid (msg : String)
  | valueError
  | typeError
  | indexError
deriving DecidableEq, Repr

/-- `CrosswordPuzzle` of `crossword.py` (its pydantic fields). -/
structure CrosswordPuzzle where
  width : Nat
  height : Nat
  clues : List Clue
  grid_history : List Grid
  clue_history : List Nat
deriving DecidableEq, Repr

/-- The initial grid built in `CrosswordPuzzle.__init__`: a height × width
matrix of cells tagged with their own coordinates and holding no value. -/
def emptyGrid (w h : Nat) : Grid :=
  { width := w, height := h,
    cells := (List.range h).map (fun r =>
      (List.range w).map (fun c => { row := r, col := c, value := none })) }

/-- `CrosswordPuzzle(...)` constructed with an empty grid history: `__init__`
appends the initial empty grid. -/
def mkPuzzle (w h : Nat) (clues : List Clue) : CrosswordPuzzle :=
  { width := w, height := h, clues := clues,
    grid_history := [emptyGrid w h], clue_history := [] }

/-- `current_grid`: `grid_history[-1]`.  Python raises `IndexError` on an
empty history; every theorem below only applies this to states whose history
is non-empty (the constructor establishes that and no operation empties it),
so the default value is never relevant. -/
def CrosswordPuzzle.current_grid (p : CrosswordPuzzle) : Grid :=
  p.grid_history.getLastD (emptyGrid p.width p.height)

/-- Whether `cells[pos.1][pos.2]` is a valid index into the grid's cell
matrix. -/
def Grid.posInBounds (g : Grid) (pos : Nat × Nat) : Bool :=
  match g.cells[pos.1]? with
  | none => false
  | some rowCells => pos.2 < rowCells.length

/-- The value stored at `cells[pos.1][pos.2]`, read totally (`none` when the
index is out of range). -/
def Grid.valueAt (g : Grid) (pos : Nat × Nat) : Option Char :=
  match g.cells[pos.1]? with
  | none => none
  | some rowCells =>
    match rowCells[pos.2]? with
    | none => none
    | some cell => cell.value

/-- One assignment `new_grid.cells[r][c].value = char` (a no-op out of range;
callers guard with `posInBounds`, matching the `IndexError` the Python loop
would raise before any state becomes visible). -/
def Grid.setCellValue (g : Grid) (pos : Nat × Nat) (v : Char) : Grid :=
  match g.cells[pos.1]? with
  | none => g
  | some rowCells =>
    match rowCells[pos.2]? with
    | none => g
    | some cell =>
      { g with cells := g.cells.set pos.1 (rowCells.set pos.2 { cell with value := some v }) }

/-- The write loop of `set_clue_chars`:
`for (row, col), char in zip(clue.cells(), chars): ...value = char`. -/
def Grid.writeChars (g : Grid) (ps : List (Nat × Nat)) (chars : List Char) : Grid :=
  (ps.zip chars).foldl (fun g pc => g.setCellValue pc.1 pc.2) g

/-- One read `self.current_grid.cells[row][col].value` inside the
comprehension of `get_current_clue_chars`. -/
def readCell (g : Grid) (pos : Nat × Nat) : Except PyErr (Option Char) :=
  match g.cells[pos.1]? with
  | none => Except.error PyErr.indexError
  | some rowCells =>
    match rowCells[pos.2]? with
    | none => Except.error PyErr.indexError
    | some cell => Except.ok cell.value

/-- `CrosswordPuzzle.get_current_clue_chars`: `InvalidClue` when the clue is
not a member of the clue list (value equality, as pydantic `==`), otherwise
the grid values at the clue's cells. -/
def get_current_clue_chars (p : CrosswordPuzzle) (clue : Clue) :
    Except PyErr (List (Option Char)) :=
  if clue ∈ p.clues then
    clue.cells.mapM (readCell p.current_grid)
  else
    Except.error (PyErr.invalidClue "Clue not found in puzzle")

/-- `CrosswordPuzzle.validate_clue_chars`:
`get_current_clue_chars(clue) == list(clue.answer)`.  The left operand is
evaluated first; then `list(None)` raises `TypeError` when no answer is
recorded.  The Python comparison of a list of optional characters against a
list of characters matches exactly the element-wise value equality below. -/
def validate_clue_chars (p : CrosswordPuzzle) (clue : Clue) : Except PyErr Bool := do
  let chars ← get_current_clue_chars p clue
  match clue.answer with
  | none => Except.error PyErr.typeError
  | some a => Except.ok (chars == a.toList.map some)

/-- Python truthiness of `clue.answer`: `None` and the empty string are
falsy. -/
def truthyAnswer (a : Option String) : Bool :=
  match a with
  | none => false
  | some s => s ≠ ""

/-- The generator `all(self.validate_clue_chars(clue) for clue in self.clues
if clue.answer)`: short-circuits on the first `False`, propagates the first
exception. -/
def validateAllAux (p : CrosswordPuzzle) : List Clue → Except PyErr Bool
  | [] => Except.ok true
  | c :: rest =>
    match validate_clue_chars p c with
    | Except.error e => Except.error e
    | Except.ok false => Except.ok false
    | Except.ok true => validateAllAux p rest

/-- `CrosswordPuzzle.validate_all`. -/
def validate_all (p : CrosswordPuzzle) : Except PyErr Bool :=
  validateAllAux p (p.clues.filter (fun c => truthyAnswer c.answer))

/-- Python `==` between an integer and a `(row, col)` tuple: cross-type
equality, always `False`.  `get_clues_overlapping_with_cell` evaluates
`row in clue.cells()` and `col in clue.cells()`, which test exactly this. -/
def intEqPair (_n : Nat) (_pos : Nat × Nat) : Bool :=
  false

/-- `CrosswordPuzzle.get_clues_overlapping_with_cell`:
`[clue for clue in self.clues if row in clue.cells() and col in clue.cells()]`. -/
def get_clues_overlapping_with_cell (p : CrosswordPuzzle) (row col : Nat) : List Clue :=
  p.clues.filter (fun clue => clue.cells.any (intEqPair row) && clue.cells.any (intEqPair col))

/-- `CrosswordPuzzle._validate_clue_chars_position`. -/
def validate_clue_chars_position (p : CrosswordPuzzle) (clue : Clue) : Bool :=
  if ¬ (clue.row < p.height ∧ clue.col < p.width) then false
  else match clue.direction with
    | Direction.across => clue.col + clue.length ≤ p.width
    | Direction.down => clue.row + clue.length ≤ p.height

/-- `CrosswordPuzzle.add_clue`, as result plus post-state (the state is
unchanged on failure: both raises happen before the append). -/
def addClueStep (p : CrosswordPuzzle) (clue : Clue) :
    Except PyErr Unit × CrosswordPuzzle :=
  if p.clues.any (fun c => c.number == clue.number) then
    (Except.error (PyErr.invalidClue "Clue with this number already exists"), p)
  else if ¬ validate_clue_chars_position p clue then
    (Except.error (PyErr.invalidClue "Clue position is invalid"), p)
  else
    (Except.ok (), { p with clues := p.clues ++ [clue] })

/-- A clue argument at a Python call site: `member i` is the list element
`puzzle.clues[i]` passed as itself (object identity), `detached c` is any
other clue object, known only by its field values. -/
inductive ClueRef where
  | member (i : Nat)
  | detached (c : Clue)
deriving DecidableEq, Repr

/-- The field values of the clue a `ClueRef` denotes (none only for a
`member` index out of range, which no Python call site can produce). -/
def resolveClue (p : CrosswordPuzzle) : ClueRef → Option Clue
  | ClueRef.member i => p.clues[i]?
  | ClueRef.detached c => some c

/-- `CrosswordPuzzle.set_clue_chars`, as result plus post-state.
The Python order of effects is kept: length check; uppercase the characters;
deep-copy the current grid and write the clue's cells (an out-of-range write
raises `IndexError` while only the local copy is touched, so the state is
unchanged); append the new grid to `grid_history`; set `answered = True` on
the argument object (which updates the list only when the argument aliases a
list element); `self.clues.index(clue)` searches the (now updated) list for
the first element equal to the updated argument — when that raises
`ValueError`, `grid_history` has already grown while `clue_history` has not. -/
def setClueCharsStep (p : CrosswordPuzzle) (ref : ClueRef) (chars : List Char) :
    Except PyErr Unit × CrosswordPuzzle :=
  match resolveClue p ref with
  | none => (Except.error PyErr.indexError, p)
  | some clue =>
    if chars.length ≠ clue.length then
      (Except.error (PyErr.invalidClue "Wrong number of characters"), p)
    else
      let upChars := chars.map Char.toUpper
      if ¬ clue.cells.all p.current_grid.posInBounds then
        (Except.error PyErr.indexError, p)
      else
        let newGrid := p.current_grid.writeChars clue.cells upChars
        let p1 := { p with grid_history := p.grid_history ++ [newGrid] }
        let updated := { clue with answered := true }
        let p2 :=
          match ref with
          | ClueRef.member i => { p1 with clues := p1.clues.set i updated }
          | ClueRef.detached _ => p1
        match p2.clues.findIdx? (fun c => decide (c = updated)) with
        | none => (Except.error PyErr.valueError, p2)
        | some j => (Except.ok (), { p2 with clue_history := p2.clue_history ++ [j] })

/-- `CrosswordPuzzle.reveal_clue_answer`: `InvalidClue` when the answer is
falsy, otherwise `set_clue_chars(clue, list(clue.answer))` with the same
object. -/
def revealClueAnswerStep (p : CrosswordPuzzle) (ref : ClueRef) :
    Except PyErr Unit × CrosswordPuzzle :=
  match resolveClue p ref with
  | none => (Except.error PyErr.indexError, p)
  | some clue =>
    match clue.answer with
    | none => (Except.error (PyErr.invalidClue "No answer available for this clue"), p)
    | some s =>
      if s = "" then (Except.error (PyErr.invalidClue "No answer available for this clue"), p)
      else setClueCharsStep p ref s.toList

/-- The loop of `CrosswordPuzzle.reveal_all`, iterating the clue list by
position from index `i`; the fuel equals the number of clues left, which no
reveal changes. -/
def revealAllAux : Nat → CrosswordPuzzle → Nat → Except PyErr Unit × CrosswordPuzzle
  | 0, p, _ => (Except.ok (), p)
  | fuel + 1, p, i =>
    match p.clues[i]? with
    | none => (Except.ok (), p)
    | some clue =>
      if !clue.answered && truthyAnswer clue.answer then
        match revealClueAnswerStep p (ClueRef.member i) with
        | (Except.error e, p') => (Except.error e, p')
        | (Except.ok _, p') => revealAllAux fuel p' (i + 1)
      else revealAllAux fuel p (i + 1)

/-- `CrosswordPuzzle.reveal_all`. -/
def revealAllStep (p : CrosswordPuzzle) : Except PyErr Unit × CrosswordPuzzle :=
  revealAllAux p.clues.length p 0

/-- `CrosswordPuzzle.undo`, as result plus post-state.  The guard raises
before any mutation; afterwards `grid_history.pop()` happens first, so a
failing `clue_history.pop()` or clue indexing would leave the grid already
popped. -/
def undoStep (p : CrosswordPuzzle) : Except PyErr Unit × CrosswordPuzzle :=
  if p.grid_history.length ≤ 1 then
    (Except.error (PyErr.invalidGrid "No moves to undo"), p)
  else
    let p1 := { p with grid_history := p.grid_history.dropLast }
    match p1.clue_history.getLast? with
    | none => (Except.error PyErr.indexError, p1)
    | some idx =>
      let p2 := { p1 with clue_history := p1.clue_history.dropLast }
      match p2.clues[idx]? with
      | none => (Except.error PyErr.indexError, p2)
      | some clue =>
        (Except.ok (), { p2 with clues := p2.clues.set idx { clue with answered := false } })

/-- `CrosswordPuzzle.reset`: truncate the history to its first snapshot,
clear `clue_history`, clear every `answered` flag. -/
def resetStep (p : CrosswordPuzzle) : Except PyErr Unit × CrosswordPuzzle :=
  match p.grid_history[0]? with
  | none => (Except.error PyErr.indexError, p)
  | some g0 =>
    (Except.ok (), { p with
                     grid_history := [g0],
                     clue_history := [],
                     clues := p.clues.map (fun c => { c with answered := false }) })

/-- One invocation of a mutating puzzle operation, with its arguments. -/
inductive Op where
  | addClue (c : Clue)
  | setClueChars (ref : ClueRef) (chars : List Char)
  | revealClueAnswer (ref : ClueRef)
  | revealAll
  | undo
  | reset
deriving Repr

/-- The state after one operation (kept even when the call raised). -/
def applyOp (p : CrosswordPuzzle) : Op → CrosswordPuzzle
  | Op.addClue c => (addClueStep p c).2
  | Op.setClueChars ref chars => (setClueCharsStep p ref chars).2
  | Op.revealClueAnswer ref => (revealClueAnswerStep p ref).2
  | Op.revealAll => (revealAllStep p).2
  | Op.undo => (undoStep p).2
  | Op.reset => (resetStep p).2

/-- The state after a sequence of operations. -/
def applyOps (p : CrosswordPuzzle) (ops : List Op) : CrosswordPuzzle :=
  ops.foldl applyOp p

/-- Whether an operation's clue argument, when it has one that feeds
`set_clue_chars`, aliases an element of the puzzle's clue list. -/
def Op.fillsAreMembers : Op → Bool
  | Op.setClueChars (ClueRef.detached _) _ => false
  | Op.revealClueAnswer (ClueRef.detached _) => false
  | _ => true

/-- The characters of a clue's recorded answer (empty when absent). -/
def answerChars (c : Clue) : List Char :=
  (c.answer.getD "").toList

/-- The grid holds clue `c`'s answer: the value at the k-th occupied cell is
the k-th answer character. -/
def clueFilled (g : Grid) (c : Clue) : Prop :=
  ∀ (k : Nat) (pos : Nat × Nat), c.cells[k]? = some pos → g.valueAt pos = (answerChars c)[k]?

/-- Invariant of the `reveal_all` loop over puzzle `p` after processing the
clues before index `i`: the history is non-empty, the clues from `i` on are
untouched, the clues before `i` are `p`'s with `answered` set, every clue of
`p` is still in bounds for the current grid, and every clue before `i` is
filled with its answer in the current grid. -/
def revealInv (p q : CrosswordPuzzle) (i : Nat) : Prop :=
  q.grid_history ≠ []
    ∧ (∀ j : Nat, i ≤ j → q.clues[j]? = p.clues[j]?)
    ∧ (∀ j : Nat, j < i →
        q.clues[j]? = (p.clues[j]?).map (fun c => { c with answered := true }))
    ∧ (∀ c ∈ p.clues, c.cells.all q.current_grid.posInBounds = true)
    ∧ (∀ (j : Nat) (c : Clue), j < i → p.clues[j]? = some c →
        clueFilled q.current_grid c)

/-! ### Concrete fixtures (the 5×5 puzzle of `tests/test_crossword.py`, and
small one-cell puzzles exercising individual code paths) -/

def clueCAT : Clue :=
  { number := 1, text := "Feline friend", direction := Direction.across,
    length := 3, row := 0, col := 0, answer := some "CAT", answered := false }

def clueCOW : Clue :=
  { number := 2, text := "Dairy farm animal", direction := Direction.down,
    length := 3, row := 0, col := 0, answer := some "COW", answered := false }

def clueTEAR : Clue :=
  { number := 3, text := "A drop of sadness", direction := Direction.down,
    length := 4, row := 0, col := 2, answer := some "TEAR", answered := false }

def puzzleFixture : CrosswordPuzzle :=
  mkPuzzle 5 5 [clueCAT, clueCOW, clueTEAR]

/-- A clue that no puzzle below contains: used to call `set_clue_chars` with
a detached, non-member argument. -/
def strayClue : Clue :=
  { number := 1, text := "stray", direction := Direction.across,
    length := 1, row := 0, col := 0, answer := none, answered := false }

/-- A member clue whose `answered` flag is already `true` before any fill. -/
def preAnsweredClue : Clue :=
  { number := 1, text := "pre", direction := Direction.across,
    length := 1, row := 0, col := 0, answer := none, answered := true }

/-- A member clue whose recorded answer is lower-case. -/
def lowerCaseClue : Clue :=
  { number := 1, text := "low", direction := Direction.across,
    length := 1, row := 0, col := 0, answer := some "a", answered := false }

/-- A member clue with no recorded answer. -/
def noAnswerClue : Clue :=
  { number := 1, text := "none", direction := Direction.across,
    length := 1, row := 0, col := 0, answer := none, answered := false }

/-! ### Grid read/write lemmas -/

theorem Grid.writeChars_nil (g : Grid) (chars : List Char) :
    g.writeChars [] chars = g := rfl

theorem Grid.writeChars_nil_chars (g : Grid) (ps : List (Nat × Nat)) :
    g.writeChars ps [] = g := by
  unfold Grid.writeChars
  rw [List.zip_nil_right]
  rfl

theorem Grid.writeChars_cons (g : Grid) (q : Nat × Nat) (ps : List (Nat × Nat))
    (ch : Char) (chs : List Char) :
    g.writeChars (q :: ps) (ch :: chs) = (g.setCellValue q ch).writeChars ps chs := rfl

theorem Grid.setCellValue_shape (g : Grid) (pos : Nat × Nat) (v : Char) (r : Nat) :
    ((g.setCellValue pos v).cells[r]?).map List.length = (g.cells[r]?).map List.length := by
  cases h1 : g.cells[pos.1]? with
  | none => simp [Grid.setCellValue, h1]
  | some rowCells =>
    cases h2 : rowCells[pos.2]? with
    | none => simp [Grid.setCellValue, h1, h2]
    | some cell =>
      simp only [Grid.setCellValue, h1, h2]
      by_cases hr : pos.1 = r
      · subst hr
        have hlt : pos.1 < g.cells.length :=
          (List.getElem?_eq_some_iff.mp h1).1
        rw [List.getElem?_set_self hlt, h1]
        simp
      · rw [List.getElem?_set_ne hr]

theorem Grid.posInBounds_eq_of_shape {g g' : Grid}
    (h : ∀ r : Nat, (g'.cells[r]?).map List.length = (g.cells[r]?).map List.length)
    (q : Nat × Nat) : g'.posInBounds q = g.posInBounds q := by
  unfold Grid.posInBounds
  have hq := h q.1
  cases h1 : g'.cells[q.1]? with
  | none => cases h2 : g.cells[q.1]? <;> simp [h1, h2] at hq ⊢
  | some rc =>
    cases h2 : g.cells[q.1]? with
    | none => simp [h1, h2] at hq
    | some rc' => simp [h1, h2] at hq ⊢; omega

theorem Grid.writeChars_shape (ps : List (Nat × Nat)) (chars : List Char) (g : Grid) (r : Nat) :
    ((g.writeChars ps chars).cells[r]?).map List.length = (g.cells[r]?).map List.length := by
  induction ps generalizing g chars with
  | nil => rfl
  | cons q ps ih =>
    cases chars with
    | nil => rw [Grid.writeChars_nil_chars]
    | cons ch chs =>
      rw [Grid.writeChars_cons, ih, Grid.setCellValue_shape]

theorem Grid.posInBounds_setCellValue (g : Grid) (pos : Nat × Nat) (v : Char) (q : Nat × Nat) :
    (g.setCellValue pos v).posInBounds q = g.posInBounds q :=
  Grid.posInBounds_eq_of_shape (Grid.setCellValue_shape g pos v) q

theorem Grid.posInBounds_writeChars (g : Grid) (ps : List (Nat × Nat)) (chars : List Char)
    (q : Nat × Nat) :
    (g.writeChars ps chars).posInBounds q = g.posInBounds q :=
  Grid.posInBounds_eq_of_shape (Grid.writeChars_shape ps chars g) q

theorem Grid.valueAt_setCellValue_ne (g : Grid) (pos : Nat × Nat) (v : Char)
    (q : Nat × Nat) (h : q ≠ pos) :
    (g.setCellValue pos v).valueAt q = g.valueAt q := by
  obtain ⟨p1, p2⟩ := pos
  obtain ⟨q1, q2⟩ := q
  cases h1 : g.cells[p1]? with
  | none => simp [Grid.setCellValue, h1]
  | some rowCells =>
    cases h2 : rowCells[p2]? with
    | none => simp [Grid.setCellValue, h1, h2]
    | some cell =>
      simp only [Grid.setCellValue, h1, h2]
      unfold Grid.valueAt
      by_cases hr : p1 = q1
      · subst hr
        have hlt : p1 < g.cells.length :=
          (List.getElem?_eq_some_iff.mp h1).1
        have hc : p2 ≠ q2 := by
          intro hc
          subst hc
          exact h rfl
        simp only [List.getElem?_set_self hlt, h1, List.getElem?_set_ne hc]
      · simp only [List.getElem?_set_ne hr]

theorem Grid.valueAt_setCellValue_self (g : Grid) (pos : Nat × Nat) (v : Char)
    (h : g.posInBounds pos = true) :
    (g.setCellValue pos v).valueAt pos = some v := by
  obtain ⟨p1, p2⟩ := pos
  unfold Grid.posInBounds at h
  cases h1 : g.cells[p1]? with
  | none => rw [h1] at h; simp at h
  | some rowCells =>
    rw [h1] at h
    have h2lt : p2 < rowCells.length := by simpa using h
    have h2 : rowCells[p2]? = some rowCells[p2] := List.getElem?_eq_getElem h2lt
    have hlt : p1 < g.cells.length := (List.getElem?_eq_some_iff.mp h1).1
    simp only [Grid.setCellValue, h1, h2]
    unfold Grid.valueAt
    simp only [List.getElem?_set_self hlt, List.getElem?_set_self (by simpa using h2lt)]

theorem Grid.valueAt_writeChars_of_not_mem (g : Grid) (ps : List (Nat × Nat))
    (chars : List Char) (q : Nat × Nat) (h : q ∉ ps) :
    (g.writeChars ps chars).valueAt q = g.valueAt q := by
  induction ps generalizing g chars with
  | nil => rfl
  | cons p0 ps ih =>
    cases chars with
    | nil => rw [Grid.writeChars_nil_chars]
    | cons ch chs =>
      rw [Grid.writeChars_cons, ih _ _ (fun hm => h (List.mem_cons_of_mem _ hm))]
      exact Grid.valueAt_setCellValue_ne _ _ _ _ (fun he => h (he ▸ List.mem_cons_self _ _))

theorem Grid.valueAt_writeChars_get (g : Grid) (ps : List (Nat × Nat))
    (chars : List Char) (q : Nat × Nat) (ch : Char) (k : Nat)
    (hnd : ps.Nodup) (hk : ps[k]? = some q) (hch : chars[k]? = some ch)
    (hb : g.posInBounds q = true) :
    (g.writeChars ps chars).valueAt q = some ch := by
  induction ps generalizing g chars k with
  | nil => simp at hk
  | cons p0 ps ih =>
    cases chars with
    | nil => simp at hch
    | cons ch0 chs =>
      rw [Grid.writeChars_cons]
      cases k with
      | zero =>
        simp only [List.getElem?_cons_zero, Option.some.injEq] at hk hch
        subst hk; subst hch
        rw [Grid.valueAt_writeChars_of_not_mem _ _ _ _ (List.nodup_cons.mp hnd).1]
        exact Grid.valueAt_setCellValue_self g _ _ hb
      | succ k =>
        simp only [List.getElem?_cons_succ] at hk hch
        exact ih _ _ _ (List.nodup_cons.mp hnd).2 hk hch
          ((Grid.posInBounds_setCellValue g p0 ch0 q) ▸ hb)

/-! ### Clue geometry lemmas -/

theorem Clue.cells_length (c : Clue) : c.cells.length = c.length := by
  simp [Clue.cells]

theorem Clue.cells_nodup (c : Clue) : c.cells.Nodup := by
  unfold Clue.cells
  cases hd : c.direction with
  | across =>
    simp only [hd]
    exact List.Nodup.map (fun a b hab => by
      simpa using congrArg Prod.snd hab) (List.nodup_range _)
  | down =>
    simp only [hd]
    exact List.Nodup.map (fun a b hab => by
      simpa using congrArg Prod.fst hab) (List.nodup_range _)

theorem Clue.mem_cells_iff_get? (c : Clue) (pos : Nat × Nat) :
    pos ∈ c.cells ↔ ∃ k : Nat, c.cells[k]? = some pos := by
  constructor
  · intro h
    obtain ⟨k, hk, he⟩ := List.getElem_of_mem h
    exact ⟨k, by rw [List.getElem?_eq_getElem hk, he]⟩
  · rintro ⟨k, hk⟩
    exact List.getElem?_mem hk

/-! ### Reading cells -/

theorem readCell_ok_of_posInBounds (g : Grid) (pos : Nat × Nat)
    (h : g.posInBounds pos = true) :
    readCell g pos = Except.ok (g.valueAt pos) := by
  obtain ⟨p1, p2⟩ := pos
  unfold Grid.posInBounds at h
  cases h1 : g.cells[p1]? with
  | none => rw [h1] at h; simp at h
  | some rowCells =>
    rw [h1] at h
    have h2lt : p2 < rowCells.length := by simpa using h
    have h2 : rowCells[p2]? = some rowCells[p2] := List.getElem?_eq_getElem h2lt
    unfold readCell Grid.valueAt
    simp [h1, h2]

theorem readCell_cases (g : Grid) (pos : Nat × Nat) :
    readCell g pos = Except.error PyErr.indexError ∨
      ∃ v, readCell g pos = Except.ok v := by
  unfold readCell
  cases h1 : g.cells[pos.1]? with
  | none => exact Or.inl rfl
  | some rowCells =>
    cases h2 : rowCells[pos.2]? with
    | none => simp [h2]
    | some cell => simp [h2]

theorem mapM_readCell_ok (g : Grid) (l : List (Nat × Nat))
    (h : l.all g.posInBounds = true) :
    l.mapM (readCell g) = Except.ok (l.map g.valueAt) := by
  induction l with
  | nil => rfl
  | cons a l ih =>
    rw [List.all_cons, Bool.and_eq_true] at h
    rw [List.mapM_cons, readCell_ok_of_posInBounds g a h.1, ih h.2]
    rfl

theorem mapM_readCell_cases (g : Grid) (l : List (Nat × Nat)) :
    (∃ vs, l.mapM (readCell g) = Except.ok vs) ∨
      l.mapM (readCell g) = Except.error PyErr.indexError := by
  induction l with
  | nil => exact Or.inl ⟨[], rfl⟩
  | cons a l ih =>
    rw [List.mapM_cons]
    rcases readCell_cases g a with h | ⟨v, h⟩
    · rw [h]
      exact Or.inr rfl
    · rw [h]
      rcases ih with ⟨vs, h2⟩ | h2 <;> rw [h2]
      · exact Or.inl ⟨v :: vs, rfl⟩
      · exact Or.inr rfl

/-! ### Validation lemmas -/

theorem truthyAnswer_iff (a : Option String) :
    truthyAnswer a = true ↔ ∃ s, a = some s ∧ s ≠ "" := by
  cases a <;> simp [truthyAnswer]

theorem get_current_clue_chars_of_mem (p : CrosswordPuzzle) (clue : Clue)
    (hm : clue ∈ p.clues) (hb : clue.cells.all p.current_grid.posInBounds = true) :
    get_current_clue_chars p clue = Except.ok (clue.cells.map p.current_grid.valueAt) := by
  unfold get_current_clue_chars
  rw [if_pos hm]
  exact mapM_readCell_ok _ _ hb

theorem validate_clue_chars_ok (p : CrosswordPuzzle) (clue : Clue) (s : String)
    (hm : clue ∈ p.clues) (hb : clue.cells.all p.current_grid.posInBounds = true)
    (ha : clue.answer = some s) :
    validate_clue_chars p clue
      = Except.ok (clue.cells.map p.current_grid.valueAt == s.toList.map some) := by
  unfold validate_clue_chars
  rw [get_current_clue_chars_of_mem p clue hm hb]
  simp only [ha]
  rfl

theorem validate_clue_chars_no_answer (p : CrosswordPuzzle) (clue : Clue)
    (hm : clue ∈ p.clues) (hb : clue.cells.all p.current_grid.posInBounds = true)
    (ha : clue.answer = none) :
    validate_clue_chars p clue = Except.error PyErr.typeError := by
  unfold validate_clue_chars
  rw [get_current_clue_chars_of_mem p clue hm hb]
  simp only [ha]
  rfl

theorem validateAllAux_ok_iff (p : CrosswordPuzzle) (l : List Clue)
    (h : ∀ c ∈ l, ∃ b : Bool, validate_clue_chars p c = Except.ok b) :
    (validateAllAux p l = Except.ok true ↔
      ∀ c ∈ l, validate_clue_chars p c = Except.ok true) := by
  induction l with
  | nil => simp [validateAllAux]
  | cons c rest ih =>
    obtain ⟨b, hbc⟩ := h c (List.mem_cons_self c rest)
    unfold validateAllAux
    rw [hbc]
    cases b with
    | false =>
      simp only [List.forall_mem_cons, hbc]
      constructor
      · intro h'
        exact absurd h' (by simp)
      · intro h'
        exact absurd h'.1 (by simp)
    | true =>
      rw [ih (fun c hc => h c (List.mem_cons_of_mem _ hc))]
      simp [List.forall_mem_cons, hbc]

theorem validateAllAux_exists_ok (p : CrosswordPuzzle) (l : List Clue)
    (h : ∀ c ∈ l, ∃ b : Bool, validate_clue_chars p c = Except.ok b) :
    ∃ b : Bool, validateAllAux p l = Except.ok b := by
  induction l with
  | nil => exact ⟨true, rfl⟩
  | cons c rest ih =>
    obtain ⟨b, hbc⟩ := h c (List.mem_cons_self c rest)
    unfold validateAllAux
    rw [hbc]
    cases b with
    | false => exact ⟨false, rfl⟩
    | true => exact ih (fun c hc => h c (List.mem_cons_of_mem _ hc))

theorem validate_all_filtered_ok (p : CrosswordPuzzle)
    (hb : ∀ c ∈ p.clues, c.cells.all p.current_grid.posInBounds = true) :
    ∀ c ∈ p.clues.filter (fun c => truthyAnswer c.answer),
      ∃ b : Bool, validate_clue_chars p c = Except.ok b := by
  intro c hc
  rw [List.mem_filter] at hc
  obtain ⟨s, ha, _⟩ := (truthyAnswer_iff c.answer).mp hc.2
  exact ⟨_, validate_clue_chars_ok p c s hc.1 (hb c hc.1) ha⟩

theorem validate_all_ok_true_iff (p : CrosswordPuzzle)
    (hb : ∀ c ∈ p.clues, c.cells.all p.current_grid.posInBounds = true) :
    (validate_all p = Except.ok true ↔
      ∀ c ∈ p.clues, truthyAnswer c.answer = true →
        c.cells.map p.current_grid.valueAt = (c.answer.getD "").toList.map some) := by
  unfold validate_all
  rw [validateAllAux_ok_iff p _ (validate_all_filtered_ok p hb)]
  constructor
  · intro h c hc ht
    obtain ⟨s, ha, _⟩ := (truthyAnswer_iff c.answer).mp ht
    have h2 := h c (List.mem_filter.mpr ⟨hc, ht⟩)
    rw [validate_clue_chars_ok p c s hc (hb c hc) ha] at h2
    rw [ha]
    simpa [beq_iff_eq] using h2
  · intro h c hc
    rw [List.mem_filter] at hc
    obtain ⟨s, ha, _⟩ := (truthyAnswer_iff c.answer).mp hc.2
    rw [validate_clue_chars_ok p c s hc.1 (hb c hc.1) ha]
    have h2 := h c hc.1 hc.2
    rw [ha] at h2
    simp only [Option.getD_some] at h2
    simp [h2]

theorem validate_all_exists_ok (p : CrosswordPuzzle)
    (hb : ∀ c ∈ p.clues, c.cells.all p.current_grid.posInBounds = true) :
    ∃ b : Bool, validate_all p = Except.ok b :=
  validateAllAux_exists_ok p _ (validate_all_filtered_ok p hb)

/-! ### set_clue_chars lemmas -/

theorem findIdx?_isSome_of_mem {l : List Clue} {a : Clue} (h : a ∈ l) :
    ∃ j, l.findIdx? (fun c => decide (c = a)) = some j :=
  ⟨_, List.findIdx?_eq_some_of_exists ⟨a, h, by simp⟩⟩

theorem findIdx?_set_self_of_nodup_number (l : List Clue) (i : Nat) (a : Clue)
    (hlt : i < l.length) (hnd : (l.map Clue.number).Nodup)
    (hnum : a.number = l[i].number) :
    (l.set i a).findIdx? (fun c => decide (c = a)) = some i := by
  rw [List.findIdx?_eq_some_iff_getElem]
  refine ⟨by simpa using hlt, by simp [List.getElem_set_self], ?_⟩
  intro j hji
  have hjl : j < l.length := Nat.lt_trans hji hlt
  rw [List.getElem_set_ne (Nat.ne_of_lt hji).symm]
  simp only [Bool.not_eq_true, decide_eq_false_iff_not]
  intro he
  have hp : l.Pairwise (fun a b => a.number ≠ b.number) := List.pairwise_map.mp hnd
  exact (List.pairwise_iff_getElem.mp hp j i hjl hlt hji) (by rw [he, hnum])

theorem setClueCharsStep_member_ok (p : CrosswordPuzzle) (i : Nat) (clue : Clue)
    (chars : List Char)
    (hi : p.clues[i]? = some clue)
    (hlen : chars.length = clue.length)
    (hb : clue.cells.all p.current_grid.posInBounds = true) :
    ∃ j : Nat,
      setClueCharsStep p (ClueRef.member i) chars =
        (Except.ok (),
         { p with
           grid_history := p.grid_history
             ++ [p.current_grid.writeChars clue.cells (chars.map Char.toUpper)],
           clues := p.clues.set i { clue with answered := true },
           clue_history := p.clue_history ++ [j] }) := by
  have hlt : i < p.clues.length := (List.getElem?_eq_some_iff.mp hi).1
  have hmem : { clue with answered := true }
      ∈ p.clues.set i { clue with answered := true } :=
    List.mem_set p.clues i hlt _
  obtain ⟨j, hj⟩ := findIdx?_isSome_of_mem hmem
  refine ⟨j, ?_⟩
  simp only [setClueCharsStep, resolveClue]
  rw [hi]
  dsimp only
  rw [if_neg (by simp [hlen])]
  rw [if_neg (by simp [hb])]
  rw [hj]

/-! ### The history-length invariant, operation by operation -/

theorem addClueStep_inv (p : CrosswordPuzzle) (c : Clue)
    (h : p.grid_history.length = p.clue_history.length + 1) :
    (addClueStep p c).2.grid_history.length
      = (addClueStep p c).2.clue_history.length + 1 := by
  unfold addClueStep
  split
  · exact h
  · split
    · exact h
    · exact h

theorem setClueCharsStep_member_inv (p : CrosswordPuzzle) (i : Nat) (chars : List Char)
    (h : p.grid_history.length = p.clue_history.length + 1) :
    (setClueCharsStep p (ClueRef.member i) chars).2.grid_history.length
      = (setClueCharsStep p (ClueRef.member i) chars).2.clue_history.length + 1 := by
  unfold setClueCharsStep resolveClue
  dsimp only
  cases hi : p.clues[i]? with
  | none => exact h
  | some clue =>
    dsimp only
    split
    · exact h
    · split
      · exact h
      · have hlt : i < p.clues.length := (List.getElem?_eq_some_iff.mp hi).1
        obtain ⟨j, hj⟩ :=
          findIdx?_isSome_of_mem (List.mem_set p.clues i hlt { clue with answered := true })
        rw [hj]
        simp [h]

theorem revealClueAnswerStep_member_inv (p : CrosswordPuzzle) (i : Nat)
    (h : p.grid_history.length = p.clue_history.length + 1) :
    (revealClueAnswerStep p (ClueRef.member i)).2.grid_history.length
      = (revealClueAnswerStep p (ClueRef.member i)).2.clue_history.length + 1 := by
  unfold revealClueAnswerStep resolveClue
  dsimp only
  cases hi : p.clues[i]? with
  | none => exact h
  | some clue =>
    dsimp only
    cases ha : clue.answer with
    | none => exact h
    | some s =>
      dsimp only
      split
      · exact h
      · exact setClueCharsStep_member_inv p i s.toList h

theorem revealAllAux_inv (fuel : Nat) :
    ∀ (p : CrosswordPuzzle) (i : Nat),
      p.grid_history.length = p.clue_history.length + 1 →
      (revealAllAux fuel p i).2.grid_history.length
        = (revealAllAux fuel p i).2.clue_history.length + 1 := by
  induction fuel with
  | zero => intro p i h; exact h
  | succ fuel ih =>
    intro p i h
    unfold revealAllAux
    cases hi : p.clues[i]? with
    | none => exact h
    | some clue =>
      dsimp only
      split
      · rcases hr : revealClueAnswerStep p (ClueRef.member i) with ⟨res, q⟩
        have hq : q.grid_history.length = q.clue_history.length + 1 := by
          have h2 := revealClueAnswerStep_member_inv p i h
          rw [hr] at h2
          exact h2
        cases res with
        | error e => exact hq
        | ok u => exact ih q (i + 1) hq
      · exact ih p (i + 1) h

theorem undoStep_inv (p : CrosswordPuzzle)
    (h : p.grid_history.length = p.clue_history.length + 1) :
    (undoStep p).2.grid_history.length = (undoStep p).2.clue_history.length + 1 := by
  unfold undoStep
  split
  · exact h
  · rename_i hg
    dsimp only
    split
    · rename_i hl
      rw [List.getLast?_eq_none_iff] at hl
      rw [hl] at h
      simp at h
      omega
    · split
      · simp only [List.length_dropLast]
        omega
      · simp only [List.length_dropLast]
        omega

theorem resetStep_inv (p : CrosswordPuzzle)
    (h : p.grid_history.length = p.clue_history.length + 1) :
    (resetStep p).2.grid_history.length = (resetStep p).2.clue_history.length + 1 := by
  unfold resetStep
  split
  · exact h
  · rfl

theorem applyOp_inv (p : CrosswordPuzzle) (op : Op)
    (hop : op.fillsAreMembers = true)
    (h : p.grid_history.length = p.clue_history.length + 1) :
    (applyOp p op).grid_history.length = (applyOp p op).clue_history.length + 1 := by
  cases op with
  | addClue c => exact addClueStep_inv p c h
  | setClueChars ref chars =>
    cases ref with
    | member i => exact setClueCharsStep_member_inv p i chars h
    | detached c => exact absurd hop (by simp [Op.fillsAreMembers])
  | revealClueAnswer ref =>
    cases ref with
    | member i => exact revealClueAnswerStep_member_inv p i h
    | detached c => exact absurd hop (by simp [Op.fillsAreMembers])
  | revealAll => exact revealAllAux_inv p.clues.length p 0 h
  | undo => exact undoStep_inv p h
  | reset => exact resetStep_inv p h

/-! ### The first grid snapshot is never replaced -/

theorem setClueCharsStep_head (p : CrosswordPuzzle) (ref : ClueRef) (chars : List Char)
    (g : Grid) (h : p.grid_history[0]? = some g) :
    (setClueCharsStep p ref chars).2.grid_history[0]? = some g := by
  have hlt : 0 < p.grid_history.length := (List.getElem?_eq_some_iff.mp h).1
  unfold setClueCharsStep
  cases hres : resolveClue p ref with
  | none => exact h
  | some clue =>
    dsimp only
    split
    · exact h
    · split
      · exact h
      · cases ref with
        | member i =>
          dsimp only
          split
          · rw [List.getElem?_append_left hlt]
            exact h
          · rw [List.getElem?_append_left hlt]
            exact h
        | detached c =>
          dsimp only
          split
          · rw [List.getElem?_append_left hlt]
            exact h
          · rw [List.getElem?_append_left hlt]
            exact h

theorem revealClueAnswerStep_head (p : CrosswordPuzzle) (ref : ClueRef)
    (g : Grid) (h : p.grid_history[0]? = some g) :
    (revealClueAnswerStep p ref).2.grid_history[0]? = some g := by
  unfold revealClueAnswerStep
  cases hres : resolveClue p ref with
  | none => exact h
  | some clue =>
    dsimp only
    cases ha : clue.answer with
    | none => exact h
    | some s =>
      dsimp only
      split
      · exact h
      · exact setClueCharsStep_head p ref s.toList g h

theorem revealAllAux_head (fuel : Nat) :
    ∀ (p : CrosswordPuzzle) (i : Nat) (g : Grid),
      p.grid_history[0]? = some g →
      (revealAllAux fuel p i).2.grid_history[0]? = some g := by
  induction fuel with
  | zero => intro p i g h; exact h
  | succ fuel ih =>
    intro p i g h
    unfold revealAllAux
    cases hi : p.clues[i]? with
    | none => exact h
    | some clue =>
      dsimp only
      split
      · rcases hr : revealClueAnswerStep p (ClueRef.member i) with ⟨res, q⟩
        have hq : q.grid_history[0]? = some g := by
          have h2 := revealClueAnswerStep_head p (ClueRef.member i) g h
          rw [hr] at h2
          exact h2
        cases res with
        | error e => exact hq
        | ok u => exact ih q (i + 1) g hq
      · exact ih p (i + 1) g h

theorem undoStep_head (p : CrosswordPuzzle) (g : Grid)
    (h : p.grid_history[0]? = some g) :
    (undoStep p).2.grid_history[0]? = some g := by
  unfold undoStep
  split
  · exact h
  · rename_i hg
    have hdl : p.grid_history.dropLast[0]? = some g := by
      rw [List.getElem?_dropLast, if_pos (by omega)]
      exact h
    dsimp only
    split
    · exact hdl
    · split
      · exact hdl
      · exact hdl

theorem addClueStep_head (p : CrosswordPuzzle) (c : Clue) (g : Grid)
    (h : p.grid_history[0]? = some g) :
    (addClueStep p c).2.grid_history[0]? = some g := by
  unfold addClueStep
  split
  · exact h
  · split
    · exact h
    · exact h

theorem resetStep_head (p : CrosswordPuzzle) (g : Grid)
    (h : p.grid_history[0]? = some g) :
    (resetStep p).2.grid_history[0]? = some g := by
  unfold resetStep
  rw [h]
  rfl

theorem applyOp_head (p : CrosswordPuzzle) (op : Op) (g : Grid)
    (h : p.grid_history[0]? = some g) :
    (applyOp p op).grid_history[0]? = some g := by
  cases op with
  | addClue c => exact addClueStep_head p c g h
  | setClueChars ref chars => exact setClueCharsStep_head p ref chars g h
  | revealClueAnswer ref => exact revealClueAnswerStep_head p ref g h
  | revealAll => exact revealAllAux_head p.clues.length p 0 g h
  | undo => exact undoStep_head p g h
  | reset => exact resetStep_head p g h

theorem applyOps_head (ops : List Op) :
    ∀ (p : CrosswordPuzzle) (g : Grid),
      p.grid_history[0]? = some g →
      (applyOps p ops).grid_history[0]? = some g := by
  induction ops with
  | nil => intro p g h; exact h
  | cons op ops ih =>
    intro p g h
    exact ih (applyOp p op) g (applyOp_head p op g h)

theorem applyOps_inv (ops : List Op) :
    ∀ p : CrosswordPuzzle,
      (∀ op ∈ ops, op.fillsAreMembers = true) →
      p.grid_history.length = p.clue_history.length + 1 →
      (applyOps p ops).grid_history.length = (applyOps p ops).clue_history.length + 1 := by
  induction ops with
  | nil => intro p _ h; exact h
  | cons op ops ih =>
    intro p hops h
    exact ih (applyOp p op)
      (fun o ho => hops o (List.mem_cons_of_mem _ ho))
      (applyOp_inv p op (hops op (List.mem_cons_self _ _)) h)

theorem emptyGrid_all_none (w h : Nat) :
    (emptyGrid w h).cells.all (fun row => row.all (fun cell => cell.value == none)) = true := by
  simp only [emptyGrid, List.all_eq_true, List.mem_map, List.mem_range]
  rintro row ⟨r, _, rfl⟩
  simp only [List.all_eq_true, List.mem_map, List.mem_range]
  rintro cell ⟨c, _, rfl⟩
  rfl

/-! ### The claims -/

/-- Claim C1, as stated, is false: `set_clue_chars` appends the new grid to
`grid_history` before `self.clues.index(clue)` runs, so calling it with a
matching-length, in-bounds clue that is not in the clue list raises
`ValueError` after `grid_history` has grown, leaving
`len(grid_history) = 2` and `len(clue_history) = 0` on a freshly
constructed puzzle. -/
theorem history_length_invariant_cex :
    ¬ ((applyOps (mkPuzzle 1 1 [])
          [Op.setClueChars (ClueRef.detached strayClue) ['a']]).grid_history.length
        = (applyOps (mkPuzzle 1 1 [])
          [Op.setClueChars (ClueRef.detached strayClue) ['a']]).clue_history.length + 1) := by
  decide

/-- Claim C1, amended: for every puzzle constructed with an empty grid
history and every sequence of the six operations in which each
`setClueChars` and `revealClueAnswer` invocation passes a clue aliasing an
element of the puzzle's clue list (other arguments arbitrary), the puzzle
satisfies `len(grid_history) = len(clue_history) + 1` after the sequence
(and `grid_history` is therefore non-empty). -/
theorem history_length_invariant (w h : Nat) (clues : List Clue) (ops : List Op)
    (hops : ∀ op ∈ ops, op.fillsAreMembers = true) :
    (applyOps (mkPuzzle w h clues) ops).grid_history.length
      = (applyOps (mkPuzzle w h clues) ops).clue_history.length + 1 :=
  applyOps_inv ops (mkPuzzle w h clues) hops rfl

/-- Witness for the amended claim C1 at a concrete operation sequence. -/
theorem history_length_invariant_witness :
    (applyOps (mkPuzzle 5 5 [clueCAT])
        [Op.setClueChars (ClueRef.member 0) ['c', 'a', 't'], Op.revealAll,
         Op.undo, Op.addClue clueCOW, Op.reset]).grid_history.length
      = (applyOps (mkPuzzle 5 5 [clueCAT])
        [Op.setClueChars (ClueRef.member 0) ['c', 'a', 't'], Op.revealAll,
         Op.undo, Op.addClue clueCOW, Op.reset]).clue_history.length + 1 :=
  history_length_invariant 5 5 [clueCAT]
    [Op.setClueChars (ClueRef.member 0) ['c', 'a', 't'], Op.revealAll,
     Op.undo, Op.addClue clueCOW, Op.reset]
    (by decide)

/-- Claim C2, as stated, is false: membership in `clue not in self.clues` is
pydantic value equality, so a clue object equal field-by-field to a list
member passes the check and `get_current_clue_chars` returns the characters
instead of raising `InvalidClue`. -/
theorem get_current_clue_chars_identity_cex :
    noAnswerClue ∈ (mkPuzzle 1 1 [noAnswerClue]).clues
      ∧ get_current_clue_chars (mkPuzzle 1 1 [noAnswerClue]) noAnswerClue
          = Except.ok [none] := by
  exact ⟨by decide, rfl⟩

/-- Claim C2, amended: `get_current_clue_chars` raises `InvalidClue` exactly
when no clue equal by value (all fields) to the argument is in the puzzle's
clue list; membership is decided by value equality, not identity, so an
equal-by-value clue in the list prevents the error. -/
theorem get_current_clue_chars_error_iff (p : CrosswordPuzzle) (clue : Clue) :
    get_current_clue_chars p clue
        = Except.error (PyErr.invalidClue "Clue not found in puzzle")
      ↔ clue ∉ p.clues := by
  by_cases hm : clue ∈ p.clues
  · simp only [get_current_clue_chars, if_pos hm]
    rcases mapM_readCell_cases p.current_grid clue.cells with ⟨vs, h2⟩ | h2 <;>
      rw [h2] <;> simp [hm]
  · simp [get_current_clue_chars, hm]

/-- Claim C3 describes the intent, but the code is wrong:
`get_clues_overlapping_with_cell` tests `row in clue.cells()` and
`col in clue.cells()`, comparing an integer against `(row, col)` tuples,
which is always false in Python; the method therefore returns the empty
list for every query, even when a clue's occupied-cell set contains the
queried pair (as clue 1 of the test fixture contains (0, 0)). -/
theorem get_clues_overlapping_always_nil :
    (∀ (p : CrosswordPuzzle) (row col : Nat),
        get_clues_overlapping_with_cell p row col = [])
      ∧ get_clues_overlapping_with_cell puzzleFixture 0 0 = []
      ∧ (0, 0) ∈ clueCAT.cells ∧ clueCAT ∈ puzzleFixture.clues := by
  have hgen : ∀ (p : CrosswordPuzzle) (row col : Nat),
      get_clues_overlapping_with_cell p row col = [] := by
    intro p row col
    simp [get_clues_overlapping_with_cell, intEqPair]
  exact ⟨hgen, hgen _ _ _, by decide, by decide⟩

/-- Claim C7: after any operation sequence on a puzzle constructed with an
empty grid history, `reset` succeeds and leaves exactly the one initial
empty snapshot (all cell values `none`) in `grid_history`, an empty
`clue_history`, and the same clue list with every `answered` flag false. -/
theorem reset_restores_initial_state (w h : Nat) (clues : List Clue) (ops : List Op) :
    (resetStep (applyOps (mkPuzzle w h clues) ops)).1 = Except.ok ()
      ∧ (resetStep (applyOps (mkPuzzle w h clues) ops)).2.grid_history = [emptyGrid w h]
      ∧ (resetStep (applyOps (mkPuzzle w h clues) ops)).2.clue_history = []
      ∧ (resetStep (applyOps (mkPuzzle w h clues) ops)).2.clues
          = (applyOps (mkPuzzle w h clues) ops).clues.map
              (fun c => { c with answered := false })
      ∧ (emptyGrid w h).cells.all
          (fun row => row.all (fun cell => cell.value == none)) = true := by
  have hh : (applyOps (mkPuzzle w h clues) ops).grid_history[0]? = some (emptyGrid w h) :=
    applyOps_head ops (mkPuzzle w h clues) (emptyGrid w h) rfl
  refine ⟨?_, ?_, ?_, ?_, emptyGrid_all_none w h⟩ <;>
    simp [resetStep, hh]

theorem validate_position_false_iff (p : CrosswordPuzzle) (clue : Clue) :
    validate_clue_chars_position p clue = false ↔
      (p.height ≤ clue.row ∨ p.width ≤ clue.col
        ∨ (clue.direction = Direction.across ∧ p.width < clue.col + clue.length)
        ∨ (clue.direction = Direction.down ∧ p.height < clue.row + clue.length)) := by
  unfold validate_clue_chars_position
  cases hd : clue.direction with
  | across =>
    by_cases hin : clue.row < p.height ∧ clue.col < p.width
    · rw [if_neg (by simpa using hin)]
      simp only [decide_eq_false_iff_not, not_le]
      simp
      omega
    · rw [if_pos (by simpa using hin)]
      simp
      omega
  | down =>
    by_cases hin : clue.row < p.height ∧ clue.col < p.width
    · rw [if_neg (by simpa using hin)]
      simp only [decide_eq_false_iff_not, not_le]
      simp
      omega
    · rw [if_pos (by simpa using hin)]
      simp
      omega

/-- Claim C6: `add_clue` signals `InvalidClue` exactly when an existing clue
has the same number, or the start position lies outside the grid, or the
clue overruns the grid in its direction; on failure the puzzle is unchanged,
and on success the clue is appended to the end of the clue list. -/
theorem add_clue_spec (p : CrosswordPuzzle) (clue : Clue) :
    ((∃ e, (addClueStep p clue).1 = Except.error e) ↔
        ((∃ c ∈ p.clues, c.number = clue.number)
          ∨ p.height ≤ clue.row ∨ p.width ≤ clue.col
          ∨ (clue.direction = Direction.across ∧ p.width < clue.col + clue.length)
          ∨ (clue.direction = Direction.down ∧ p.height < clue.row + clue.length)))
      ∧ ((∃ e, (addClueStep p clue).1 = Except.error e) → (addClueStep p clue).2 = p)
      ∧ ((addClueStep p clue).1 = Except.ok ()
          → (addClueStep p clue).2 = { p with clues := p.clues ++ [clue] }) := by
  have hdup_iff : (p.clues.any (fun c => c.number == clue.number) = true) ↔
      ∃ c ∈ p.clues, c.number = clue.number := by
    simp [List.any_eq_true]
  by_cases hdup : p.clues.any (fun c => c.number == clue.number)
  · refine ⟨iff_of_true ⟨PyErr.invalidClue "Clue with this number already exists",
        by simp [addClueStep, hdup]⟩ (Or.inl (hdup_iff.mp hdup)),
      fun _ => by simp [addClueStep, hdup], fun hok => ?_⟩
    simp [addClueStep, hdup] at hok
  · by_cases hval : validate_clue_chars_position p clue
    · have hfalse : ¬ validate_clue_chars_position p clue = false := by simp [hval]
      refine ⟨iff_of_false ?_ ?_, fun he => ?_, fun _ => by simp [addClueStep, hdup, hval]⟩
      · rintro ⟨e, he⟩
        simp [addClueStep, hdup, hval] at he
      · rintro (hd | hrest)
        · exact hdup (hdup_iff.mpr hd)
        · exact hfalse ((validate_position_false_iff p clue).mpr
            (by tauto))
      · obtain ⟨e, he⟩ := he
        simp [addClueStep, hdup, hval] at he
    · have hf : validate_clue_chars_position p clue = false := by simpa using hval
      refine ⟨iff_of_true ⟨PyErr.invalidClue "Clue position is invalid",
          by simp [addClueStep, hdup, hf]⟩ ?_,
        fun _ => by simp [addClueStep, hdup, hf], fun hok => ?_⟩
      · have := (validate_position_false_iff p clue).mp hf
        tauto
      · simp [addClueStep, hdup, hf] at hok

/-- Witness for claim C6: a duplicate-number clue is rejected without
mutation, and a valid clue is appended. -/
theorem add_clue_spec_witness :
    (addClueStep puzzleFixture preAnsweredClue).2 = puzzleFixture
      ∧ (addClueStep puzzleFixture
            { number := 4, text := "new", direction := Direction.across,
              length := 2, row := 4, col := 0, answer := none, answered := false }).2
          = { puzzleFixture with
              clues := puzzleFixture.clues
                ++ [{ number := 4, text := "new", direction := Direction.across,
                      length := 2, row := 4, col := 0, answer := none, answered := false }] } :=
  ⟨(add_clue_spec puzzleFixture preAnsweredClue).2.1
      ⟨PyErr.invalidClue "Clue with this number already exists", by rfl⟩,
    (add_clue_spec puzzleFixture
        { number := 4, text := "new", direction := Direction.across,
          length := 2, row := 4, col := 0, answer := none, answered := false }).2.2
      (by rfl)⟩

/-- Claim C9: a successful `set_clue_chars` call on a member clue appends
exactly one snapshot: the previous snapshots are untouched (the history is
the old history plus one new grid), and the appended snapshot is the pure
functional update of the previous current grid — in this value-level
embedding the deep copy of `model_copy(deep=True)` is the fact that the new
snapshot is built by `writeChars` from the old grid without modifying it or
any other snapshot. -/
theorem set_clue_chars_frame (p : CrosswordPuzzle) (i : Nat) (clue : Clue)
    (chars : List Char)
    (hi : p.clues[i]? = some clue)
    (hlen : chars.length = clue.length)
    (hb : clue.cells.all p.current_grid.posInBounds = true) :
    (setClueCharsStep p (ClueRef.member i) chars).1 = Except.ok ()
      ∧ (setClueCharsStep p (ClueRef.member i) chars).2.grid_history
          = p.grid_history
            ++ [p.current_grid.writeChars clue.cells (chars.map Char.toUpper)]
      ∧ ∀ k : Nat, k < p.grid_history.length →
          (setClueCharsStep p (ClueRef.member i) chars).2.grid_history[k]?
            = p.grid_history[k]? := by
  obtain ⟨j, hj⟩ := setClueCharsStep_member_ok p i clue chars hi hlen hb
  rw [hj]
  exact ⟨rfl, rfl, fun k hk => List.getElem?_append_left hk⟩

/-- Witness for claim C9 at the test fixture. -/
theorem set_clue_chars_frame_witness :
    (setClueCharsStep puzzleFixture (ClueRef.member 0) ['c', 'a', 't']).1
      = Except.ok () :=
  (set_clue_chars_frame puzzleFixture 0 clueCAT ['c', 'a', 't']
    (by rfl) (by decide) (by decide)).1

/-- Claim C4, as stated, is false in the already-answered case: `undo` sets
`answered = False` unconditionally, so filling a member clue whose
`answered` flag was already true and undoing leaves the flag false, not its
prior value. -/
theorem set_then_undo_answered_cex :
    preAnsweredClue.answered = true
      ∧ ((undoStep (setClueCharsStep (mkPuzzle 1 1 [preAnsweredClue])
            (ClueRef.member 0) ['a']).2).2.clues.map Clue.answered = [false]) := by
  decide

/-- Claim C4, amended: for a member clue (at index `i`, clue numbers
pairwise distinct, cells in bounds) and a matching-length character list,
`set_clue_chars` followed by `undo` succeeds and restores `grid_history`
and `clue_history` exactly, and leaves the clue's `answered` flag `false` —
its prior value whenever it was false before the fill, but not when it was
already true. -/
theorem set_then_undo (p : CrosswordPuzzle) (i : Nat) (clue : Clue) (chars : List Char)
    (hg : p.grid_history ≠ [])
    (hi : p.clues[i]? = some clue)
    (hlen : chars.length = clue.length)
    (hb : clue.cells.all p.current_grid.posInBounds = true)
    (hnd : (p.clues.map Clue.number).Nodup) :
    (undoStep (setClueCharsStep p (ClueRef.member i) chars).2).1 = Except.ok ()
      ∧ (undoStep (setClueCharsStep p (ClueRef.member i) chars).2).2.grid_history
          = p.grid_history
      ∧ (undoStep (setClueCharsStep p (ClueRef.member i) chars).2).2.clue_history
          = p.clue_history
      ∧ (undoStep (setClueCharsStep p (ClueRef.member i) chars).2).2.clues
          = p.clues.set i { clue with answered := false } := by
  have hlt : i < p.clues.length := (List.getElem?_eq_some_iff.mp hi).1
  obtain ⟨hlt2, hgetl⟩ := List.getElem?_eq_some_iff.mp hi
  have hfind : (p.clues.set i { clue with answered := true }).findIdx?
      (fun c => decide (c = { clue with answered := true })) = some i :=
    findIdx?_set_self_of_nodup_number p.clues i { clue with answered := true } hlt hnd
      (by rw [hgetl])
  have hstep : setClueCharsStep p (ClueRef.member i) chars =
      (Except.ok (),
       { p with
         grid_history := p.grid_history
           ++ [p.current_grid.writeChars clue.cells (chars.map Char.toUpper)],
         clues := p.clues.set i { clue with answered := true },
         clue_history := p.clue_history ++ [i] }) := by
    simp only [setClueCharsStep, resolveClue]
    rw [hi]
    dsimp only
    rw [if_neg (by simp [hlen])]
    rw [if_neg (by simp [hb])]
    rw [hfind]
  rw [hstep]
  have hglen : 1 ≤ p.grid_history.length := by
    cases hgl : p.grid_history with
    | nil => exact absurd hgl hg
    | cons a l => simp
  unfold undoStep
  rw [if_neg (by simp only [List.length_append, List.length_cons, List.length_nil]; omega)]
  dsimp only
  rw [List.getLast?_concat]
  dsimp only
  rw [List.getElem?_set_self (by simpa using hlt)]
  dsimp only
  refine ⟨rfl, by simp [List.dropLast_concat], by simp [List.dropLast_concat], ?_⟩
  rw [List.set_set]

/-- Witness for the amended claim C4 at the test fixture. -/
theorem set_then_undo_witness :
    (undoStep (setClueCharsStep puzzleFixture (ClueRef.member 0) ['c', 'a', 't']).2).1
      = Except.ok () :=
  (set_then_undo puzzleFixture 0 clueCAT ['c', 'a', 't']
    (by decide) (by rfl) (by decide) (by decide) (by decide)).1

/-- Claim C10: for a member clue with in-bounds cells and no recorded
answer, `validate_clue_chars` does not return a boolean but fails with the
`TypeError` of `list(None)`; `validate_all` filters clues through the
truthiness of `clue.answer` before calling it, so (under the same bounds)
it always returns a boolean. -/
theorem validate_clue_chars_needs_answer (p : CrosswordPuzzle) :
    (∀ clue ∈ p.clues, clue.cells.all p.current_grid.posInBounds = true →
        clue.answer = none →
        validate_clue_chars p clue = Except.error PyErr.typeError)
      ∧ ((∀ clue ∈ p.clues, clue.cells.all p.current_grid.posInBounds = true) →
          ∃ b : Bool, validate_all p = Except.ok b) :=
  ⟨fun clue hm hb ha => validate_clue_chars_no_answer p clue hm hb ha,
    fun hb => validate_all_exists_ok p hb⟩

/-- Witness for claim C10 at a one-cell puzzle whose clue has no answer. -/
theorem validate_clue_chars_needs_answer_witness :
    validate_clue_chars (mkPuzzle 1 1 [noAnswerClue]) noAnswerClue
        = Except.error PyErr.typeError
      ∧ ∃ b : Bool, validate_all (mkPuzzle 1 1 [noAnswerClue]) = Except.ok b :=
  ⟨(validate_clue_chars_needs_answer (mkPuzzle 1 1 [noAnswerClue])).1 noAnswerClue
      (by decide) (by decide) rfl,
    (validate_clue_chars_needs_answer (mkPuzzle 1 1 [noAnswerClue])).2 (by decide)⟩

/-- Claim C8: on a puzzle with a non-empty grid history whose clues' cells
are all in bounds, `validate_all` returns true exactly when every clue with
a (non-empty) recorded answer has current grid characters at its cells
equal to that answer; clues without a recorded answer are skipped by the
generator's truthiness filter and cannot make the result false. -/
theorem validate_all_true_iff (p : CrosswordPuzzle)
    (_hg : p.grid_history ≠ [])
    (hb : ∀ clue ∈ p.clues, clue.cells.all p.current_grid.posInBounds = true) :
    (validate_all p = Except.ok true ↔
      ∀ clue ∈ p.clues, truthyAnswer clue.answer = true →
        clue.cells.map p.current_grid.valueAt
          = (clue.answer.getD "").toList.map some) :=
  validate_all_ok_true_iff p hb

/-- Witness for claim C8: the fully revealed test fixture validates. -/
theorem validate_all_true_iff_witness :
    validate_all (revealAllStep puzzleFixture).2 = Except.ok true :=
  (validate_all_true_iff (revealAllStep puzzleFixture).2
    (by decide) (by decide)).mpr (by decide)

/-! ### Lemmas about filled clues, towards claim C5 -/

theorem clueFilled_writeChars_self (g : Grid) (c : Clue)
    (hb : c.cells.all g.posInBounds = true)
    (hlen : (answerChars c).length = c.length)
    (hup : (answerChars c).map Char.toUpper = answerChars c) :
    clueFilled (g.writeChars c.cells ((answerChars c).map Char.toUpper)) c := by
  rw [hup]
  intro k pos hk
  have hklt : k < c.cells.length := (List.getElem?_eq_some_iff.mp hk).1
  have hchars : k < (answerChars c).length := by
    rw [hlen, ← Clue.cells_length c]
    exact hklt
  have hch : (answerChars c)[k]? = some (answerChars c)[k] :=
    List.getElem?_eq_getElem hchars
  rw [hch]
  refine Grid.valueAt_writeChars_get g c.cells (answerChars c) pos _ k
    (Clue.cells_nodup c) hk hch ?_
  have hpm : pos ∈ c.cells := List.getElem?_mem hk
  exact (List.all_eq_true.mp hb) pos hpm

theorem clueFilled_writeChars_other (g : Grid) (c d : Clue)
    (hf : clueFilled g c)
    (hbd : d.cells.all g.posInBounds = true)
    (hlend : (answerChars d).length = d.length)
    (hupd : (answerChars d).map Char.toUpper = answerChars d)
    (hcons : ∀ k1 : Nat, k1 < c.cells.length → ∀ k2 : Nat, k2 < d.cells.length →
        c.cells[k1]? = d.cells[k2]? → (answerChars c)[k1]? = (answerChars d)[k2]?) :
    clueFilled (g.writeChars d.cells ((answerChars d).map Char.toUpper)) c := by
  rw [hupd]
  intro k pos hk
  have hklt : k < c.cells.length := (List.getElem?_eq_some_iff.mp hk).1
  by_cases hmem : pos ∈ d.cells
  · obtain ⟨k2, hk2⟩ := (Clue.mem_cells_iff_get? d pos).mp hmem
    have hk2lt : k2 < d.cells.length := (List.getElem?_eq_some_iff.mp hk2).1
    have hch2 : k2 < (answerChars d).length := by
      rw [hlend, ← Clue.cells_length d]
      exact hk2lt
    have hch : (answerChars d)[k2]? = some (answerChars d)[k2] :=
      List.getElem?_eq_getElem hch2
    have hval : (g.writeChars d.cells (answerChars d)).valueAt pos
        = some (answerChars d)[k2] := by
      refine Grid.valueAt_writeChars_get g d.cells (answerChars d) pos _ k2
        (Clue.cells_nodup d) hk2 hch ?_
      exact (List.all_eq_true.mp hbd) pos hmem
    rw [hval, ← hch]
    exact (hcons k hklt k2 hk2lt (hk.trans hk2.symm)).symm
  · rw [Grid.valueAt_writeChars_of_not_mem g _ _ pos hmem]
    exact hf k pos hk

theorem clueFilled_to_map (g : Grid) (c : Clue)
    (hf : clueFilled g c) (hlen : (answerChars c).length = c.length) :
    c.cells.map g.valueAt = (answerChars c).map some := by
  apply List.ext_getElem?
  intro k
  rw [List.getElem?_map, List.getElem?_map]
  cases hk : c.cells[k]? with
  | none =>
    have hk2 : c.cells.length ≤ k := by
      by_contra hlt
      rw [List.getElem?_eq_getElem (Nat.lt_of_not_le hlt)] at hk
      exact Option.noConfusion hk
    rw [List.getElem?_eq_none (by rw [hlen, ← Clue.cells_length c]; exact hk2)]
    rfl
  | some pos =>
    have hklt : k < c.cells.length := (List.getElem?_eq_some_iff.mp hk).1
    have hlt2 : k < (answerChars c).length := by
      rw [hlen, ← Clue.cells_length c]
      exact hklt
    have hch := List.getElem?_eq_getElem hlt2
    have hv := hf k pos hk
    rw [hch] at hv
    rw [hch]
    simp [hv]

theorem revealAllAux_filled (p : CrosswordPuzzle)
    (hans : ∀ c ∈ p.clues, truthyAnswer c.answer = true)
    (hlen : ∀ c ∈ p.clues, (answerChars c).length = c.length)
    (hup : ∀ c ∈ p.clues, (answerChars c).map Char.toUpper = answerChars c)
    (hunans : ∀ c ∈ p.clues, c.answered = false)
    (hcons : ∀ c1 ∈ p.clues, ∀ c2 ∈ p.clues, ∀ k1 < c1.cells.length,
        ∀ k2 < c2.cells.length,
        c1.cells[k1]? = c2.cells[k2]? → (answerChars c1)[k1]? = (answerChars c2)[k2]?) :
    ∀ (fuel : Nat) (q : CrosswordPuzzle) (i : Nat),
      revealInv p q i → p.clues.length ≤ i + fuel →
      (revealAllAux fuel q i).1 = Except.ok ()
        ∧ ∃ i' : Nat, p.clues.length ≤ i' ∧ revealInv p (revealAllAux fuel q i).2 i' := by
  intro fuel
  induction fuel with
  | zero =>
    intro q i hinv hn
    exact ⟨rfl, i, by simpa using hn, hinv⟩
  | succ fuel ih =>
    intro q i hinv hn
    obtain ⟨hA, hB, hC, hD, hE⟩ := hinv
    unfold revealAllAux
    cases hqi : q.clues[i]? with
    | none =>
      have hpi : p.clues[i]? = none := by rw [← hB i le_rfl]; exact hqi
      have hni : p.clues.length ≤ i := by
        by_contra hlt
        rw [List.getElem?_eq_getElem (Nat.lt_of_not_le hlt)] at hpi
        exact Option.noConfusion hpi
      exact ⟨rfl, i, hni, hA, hB, hC, hD, hE⟩
    | some clue =>
      dsimp only
      have hpi : p.clues[i]? = some clue := by rw [← hB i le_rfl]; exact hqi
      have hmem : clue ∈ p.clues := List.getElem?_mem hpi
      have hanf : clue.answered = false := hunans clue hmem
      have htr : truthyAnswer clue.answer = true := hans clue hmem
      rw [if_pos (by simp [hanf, htr])]
      obtain ⟨s, hs, hne⟩ := (truthyAnswer_iff clue.answer).mp htr
      have hachars : answerChars clue = s.toList := by simp [answerChars, hs]
      have hlenc : s.toList.length = clue.length := by
        rw [← hachars]
        exact hlen clue hmem
      have hbq : clue.cells.all q.current_grid.posInBounds = true := hD clue hmem
      obtain ⟨j, hstep⟩ := setClueCharsStep_member_ok q i clue s.toList hqi hlenc hbq
      have hrev : revealClueAnswerStep q (ClueRef.member i)
          = setClueCharsStep q (ClueRef.member i) s.toList := by
        simp only [revealClueAnswerStep, resolveClue]
        rw [hqi]
        dsimp only
        rw [hs]
        dsimp only
        rw [if_neg hne]
      rw [hrev, hstep]
      dsimp only
      have hlt : i < q.clues.length := (List.getElem?_eq_some_iff.mp hqi).1
      refine ih _ (i + 1) ⟨?_, ?_, ?_, ?_, ?_⟩ (by omega)
      · simp
      · intro j' hj'
        dsimp only
        rw [List.getElem?_set_ne (by omega)]
        exact hB j' (by omega)
      · intro j' hj'
        dsimp only
        by_cases hji : j' = i
        · subst hji
          rw [List.getElem?_set_self hlt, hpi]
          rfl
        · rw [List.getElem?_set_ne (fun he => hji he.symm)]
          exact hC j' (by omega)
      · intro c hc
        have hcur : ({ q with
            grid_history := q.grid_history
              ++ [q.current_grid.writeChars clue.cells (s.toList.map Char.toUpper)],
            clues := q.clues.set i { clue with answered := true },
            clue_history := q.clue_history ++ [j] } : CrosswordPuzzle).current_grid
            = q.current_grid.writeChars clue.cells (s.toList.map Char.toUpper) := by
          simp [CrosswordPuzzle.current_grid, List.getLastD_concat]
        rw [hcur]
        have hpb : (q.current_grid.writeChars clue.cells
              (s.toList.map Char.toUpper)).posInBounds
            = q.current_grid.posInBounds :=
          funext (Grid.posInBounds_writeChars q.current_grid clue.cells
            (s.toList.map Char.toUpper))
        rw [hpb]
        exact hD c hc
      · intro j' c hj' hpc
        have hcur : ({ q with
            grid_history := q.grid_history
              ++ [q.current_grid.writeChars clue.cells (s.toList.map Char.toUpper)],
            clues := q.clues.set i { clue with answered := true },
            clue_history := q.clue_history ++ [j] } : CrosswordPuzzle).current_grid
            = q.current_grid.writeChars clue.cells (s.toList.map Char.toUpper) := by
          simp [CrosswordPuzzle.current_grid, List.getLastD_concat]
        rw [hcur]
        have hwrite : q.current_grid.writeChars clue.cells (s.toList.map Char.toUpper)
            = q.current_grid.writeChars clue.cells ((answerChars clue).map Char.toUpper) := by
          rw [hachars]
        rw [hwrite]
        by_cases hji : j' = i
        · subst hji
          rw [hpi] at hpc
          injection hpc with hce
          subst hce
          exact clueFilled_writeChars_self q.current_grid clue hbq (hlen clue hmem)
            (hup clue hmem)
        · have hfc : clueFilled q.current_grid c := hE j' c (by omega) hpc
          exact clueFilled_writeChars_other q.current_grid c clue hfc hbq
            (hlen clue hmem) (hup clue hmem)
            (hcons c (List.getElem?_mem hpc) clue hmem)

/-- Claim C5, as stated, is false: `set_clue_chars` uppercases the
characters it writes while `validate_clue_chars` compares them against the
raw recorded answer, so a puzzle whose clue has the lower-case answer "a"
(non-empty, matching length, in bounds) yields `validate_all() == False`
right after `reveal_all()`. -/
theorem reveal_all_then_validate_all_cex :
    (∀ c ∈ (mkPuzzle 1 1 [lowerCaseClue]).clues,
        truthyAnswer c.answer = true
          ∧ (answerChars c).length = c.length
          ∧ c.cells.all (mkPuzzle 1 1 [lowerCaseClue]).current_grid.posInBounds = true)
      ∧ validate_all (revealAllStep (mkPuzzle 1 1 [lowerCaseClue])).2
          = Except.ok false :=
  ⟨by decide, by rfl⟩

/-- Claim C5, amended: for every puzzle with a non-empty grid history in
which every clue has a non-empty upper-case recorded answer of length equal
to the clue's length, no clue is marked answered, every clue's cells are in
bounds, and any two clues agree on the answer character at every shared
cell, `revealAll()` succeeds and a subsequent `validateAll()` returns
true. -/
theorem reveal_all_then_validate_all (p : CrosswordPuzzle)
    (hg : p.grid_history ≠ [])
    (hans : ∀ c ∈ p.clues, truthyAnswer c.answer = true)
    (hlen : ∀ c ∈ p.clues, (answerChars c).length = c.length)
    (hup : ∀ c ∈ p.clues, (answerChars c).map Char.toUpper = answerChars c)
    (hunans : ∀ c ∈ p.clues, c.answered = false)
    (hb : ∀ c ∈ p.clues, c.cells.all p.current_grid.posInBounds = true)
    (hcons : ∀ c1 ∈ p.clues, ∀ c2 ∈ p.clues, ∀ k1 < c1.cells.length,
        ∀ k2 < c2.cells.length,
        c1.cells[k1]? = c2.cells[k2]? → (answerChars c1)[k1]? = (answerChars c2)[k2]?) :
    (revealAllStep p).1 = Except.ok ()
      ∧ validate_all (revealAllStep p).2 = Except.ok true := by
  have hstart : revealInv p p 0 :=
    ⟨hg, fun j _ => rfl, fun j hj => absurd hj (Nat.not_lt_zero j), hb,
      fun j c hj _ => absurd hj (Nat.not_lt_zero j)⟩
  obtain ⟨hok, i', hni, hA, hB, hC, hD, hE⟩ :=
    revealAllAux_filled p hans hlen hup hunans hcons p.clues.length p 0 hstart
      (by omega)
  refine ⟨hok, ?_⟩
  have hmemchar : ∀ c' ∈ (revealAllAux p.clues.length p 0).2.clues,
      ∃ c, c ∈ p.clues ∧ c' = { c with answered := true }
        ∧ clueFilled (revealAllAux p.clues.length p 0).2.current_grid c := by
    intro c' hc'
    obtain ⟨jx, hjlt, hje⟩ := List.getElem_of_mem hc'
    have hj2 : (revealAllAux p.clues.length p 0).2.clues[jx]? = some c' := by
      rw [List.getElem?_eq_getElem hjlt, hje]
    by_cases hji : jx < i'
    · have hCx := hC jx hji
      rw [hj2] at hCx
      cases hpj : p.clues[jx]? with
      | none =>
        rw [hpj] at hCx
        exact Option.noConfusion hCx
      | some c =>
        rw [hpj] at hCx
        injection hCx with hce
        exact ⟨c, List.getElem?_mem hpj, hce, hE jx c hji hpj⟩
    · have hBx := hB jx (Nat.le_of_not_lt hji)
      rw [hj2] at hBx
      have hnone : p.clues[jx]? = none :=
        List.getElem?_eq_none (Nat.le_trans hni (Nat.le_of_not_lt hji))
      rw [hnone] at hBx
      exact Option.noConfusion hBx
  have hbf : ∀ c' ∈ (revealAllAux p.clues.length p 0).2.clues,
      c'.cells.all (revealAllAux p.clues.length p 0).2.current_grid.posInBounds
        = true := by
    intro c' hc'
    obtain ⟨c, hcm, rfl, _⟩ := hmemchar c' hc'
    exact hD c hcm
  apply (validate_all_ok_true_iff (revealAllAux p.clues.length p 0).2 hbf).mpr
  intro c' hc' _
  obtain ⟨c, hcm, rfl, hfc⟩ := hmemchar c' hc'
  exact clueFilled_to_map (revealAllAux p.clues.length p 0).2.current_grid c hfc
    (hlen c hcm)

/-- Witness for the amended claim C5 at the test fixture (upper-case,
consistent answers). -/
theorem reveal_all_then_validate_all_witness :
    (revealAllStep puzzleFixture).1 = Except.ok ()
      ∧ validate_all (revealAllStep puzzleFixture).2 = Except.ok true :=
  reveal_all_then_validate_all puzzleFixture (by decide) (by decide) (by decide)
    (by decide) (by decide) (by decide) (by decide)

end Crossword
